import Mathlib

/-!
Verification development for the LWIR temporal compressor
(ceresimaging/lwir-compress).

The development shallowly embeds the arithmetic core of the repository:

* `src/src/residual.cpp` — temporal difference, dead-zone quantization,
  centered dequantization, biasing and saturating reconstruction;
* `src/src/encoder.cpp`  — the FrameEncoder state machine (intra encode,
  residual encode, decode, reset) over an abstract symbol codec;
* `src/src/bitdepth.cpp` — the 12-bit range mapper;
* `src/src/decision.cpp` and `src/src/config.cpp` — the two
  FrameDecisionEngine implementations (heuristics, rate hysteresis,
  periodic GOP forcing, EMA updates).

Machine integers are modelled as `Nat`/`Int` with the C conversions made
explicit: `u32` is arithmetic modulo 2^32, `int16ofInt` is the wrap-around
conversion to the signed 16-bit range, `i32ofNat` is the uint32 → int32
reinterpretation.  Floating-point state of the decision engines (all
`double` fields) is modelled over `ℚ`; the claims about the engines concern
branch structure and exact comparisons at dyadic values, where `double`
and `ℚ` agree.  The CharLS JPEG-LS coder lives outside this repository and
repository and is abstracted as a `Codec` record exactly as the design
treats it (an abstract symbol codec); `idCodec` instantiates it with the
lossless identity behaviour that NEAR = 0 guarantees.
-/

namespace Lwir

/-- Arithmetic of C `uint32_t`: reduction modulo 2^32. -/
def u32 (x : ℕ) : ℕ := x % 2 ^ 32

/-- C conversion of an `int` value to `int16_t` (wrap-around, two-s
complement). -/
def int16ofInt (x : ℤ) : ℤ := (x + 32768) % 65536 - 32768

/-- C conversion of a `uint32_t` value to `int32_t` (reinterpretation of
the bit pattern). -/
def i32ofNat (n : ℕ) : ℤ :=
  if n % 2 ^ 32 < 2 ^ 31 then ((n % 2 ^ 32 : ℕ) : ℤ)
  else ((n % 2 ^ 32 : ℕ) : ℤ) - 2 ^ 32

/-- One element of `compute_residual` (residual.cpp:15-27):
`residual[i] = int16(current[i]) - int16(previous[i])`, the subtraction
performed in `int` and the result stored into `int16_t`.  Samples are
`uint16_t`, hence below 65536, so the inner `int16` casts of the C code
are the wrap-around conversion applied to the sample values. -/
def computeResidualElem (cur prev : ℕ) : ℤ :=
  int16ofInt (int16ofInt (cur : ℤ) - int16ofInt (prev : ℤ))

/-- One element of `quantize_residual` (residual.cpp:29-58).
`T` is `dead_zone_T`, `Qfx` is `quant_Q_fixed`, `fp` is `fp_bits`.
The C loop computes, in `uint32_t`,
`a2 = (|R| > T) ? |R| - T : 0`, `numerator = (a2 << fp) + (1 << (fp-1))`,
`q_abs = numerator / Qfx`, and stores `int16(sign * int32(q_abs))`.
Truncated `Nat` subtraction realizes the dead-zone conditional exactly. -/
def quantizeElem (T Qfx fp : ℕ) (R : ℤ) : ℤ :=
  int16ofInt ((if 0 ≤ R then 1 else -1) *
    i32ofNat (u32 (u32 ((R.natAbs - T) * 2 ^ fp) + 2 ^ (fp - 1)) / Qfx))

/-- One element of `dequantize_residual` (residual.cpp:60-87).
For `q ≠ 0` the C loop computes, in `uint32_t`,
`recon_abs = ((|q| * Qfx) >> fp) + T/2` and stores
`int16(sign * int32(recon_abs))`; for `q = 0` it stores 0. -/
def dequantizeElem (T Qfx fp : ℕ) (q : ℤ) : ℤ :=
  if q = 0 then 0
  else int16ofInt ((if 0 ≤ q then 1 else -1) *
    i32ofNat (u32 (u32 (q.natAbs * Qfx) / 2 ^ fp + T / 2)))

/-- One element of `reconstruct_frame` (residual.cpp:115-127):
`out[i] = clamp(int32(prev[i]) + int32(r[i]), 0, 65535)` stored as
`uint16_t`. -/
def reconstructElem (prev : ℕ) (r : ℤ) : ℕ :=
  (min (max ((prev : ℤ) + r) 0) 65535).toNat

/-- The bias step of `FrameEncoder::encode_residual_frame`
(encoder.cpp:307-310): `uint16(q + 32768)`, the addition performed in
`int`. -/
def biasElem (q : ℤ) : ℕ := ((q + 32768) % 65536).toNat

/-- The unbias step of `FrameEncoder::encode_residual_frame` /
`FrameEncoder::decode_frame` (encoder.cpp:347-350, 441-443):
`int16(u - 32768)`, the subtraction performed in `int`. -/
def unbiasElem (u : ℕ) : ℤ := int16ofInt ((u : ℤ) - 32768)

/-! ## Decision engines

The repository contains two distinct `FrameDecisionEngine` classes: one in
decision.cpp working over a `DecisionState` (namespace `Decision` below),
and one in config.cpp working over a `CompressionConfig` plus private
members (namespace `Config` below).  The pipeline (pipeline.cpp:195)
instantiates the config.cpp one.  All `double` fields are modelled as `ℚ`. -/

/-- `FrameMode` (stats.hpp:12-15). -/
inductive FrameMode where
  | USE_INTRA
  | USE_RESIDUAL
deriving DecidableEq, Repr

/-- `ResidualStats` (stats.hpp:20-32). -/
structure ResidualStats where
  mean : ℚ
  p95 : ℚ
  p99 : ℚ
  entropy : ℚ
  zeroMass : ℚ
  meanAbs : ℚ
  bpsRes : ℚ
deriving DecidableEq, Repr

namespace Decision

/-- `DecisionState` (decision.hpp:11-47). -/
structure DecisionState where
  bpsIntraEma : ℚ
  emaAlpha : ℚ
  gopPeriod : ℕ
  gopMax : ℕ
  marginBpp : ℚ
  hysteresisBpp : ℚ
  enableProbe : Bool
  probeBandBpp : ℚ
  probeMargin : ℚ
  framesSinceKey : ℕ
  lastMode : FrameMode
  zeroMassMin : ℚ
  meanAbsMax : ℚ
  p95Max : ℚ
  p99Max : ℚ
deriving DecidableEq, Repr

/-- The `DecisionState` default constructor values (decision.hpp:30-46):
2.5, 0.2, 60, 120, 0.3, 0.15, false, 0.15, 0.1, 0, USE_INTRA, 0.75, 12.0,
30.0, 50.0. -/
def defaultState : DecisionState :=
  { bpsIntraEma := 5 / 2
    emaAlpha := 1 / 5
    gopPeriod := 60
    gopMax := 120
    marginBpp := 3 / 10
    hysteresisBpp := 3 / 20
    enableProbe := false
    probeBandBpp := 3 / 20
    probeMargin := 1 / 10
    framesSinceKey := 0
    lastMode := .USE_INTRA
    zeroMassMin := 3 / 4
    meanAbsMax := 12
    p95Max := 30
    p99Max := 50 }

/-- `FrameDecisionEngine::should_force_periodic` (decision.cpp:51-55). -/
def should_force_periodic (s : DecisionState) (frameIndex : ℕ) : Bool :=
  decide (frameIndex % s.gopPeriod = 0) || decide (s.gopMax ≤ s.framesSinceKey)

/-- `FrameDecisionEngine::should_force_heuristic` (decision.cpp:57-69):
any of the zero-mass, mean-abs, p95 or p99 conditions triggers intra;
the entropy statistic is not consulted. -/
def should_force_heuristic (s : DecisionState) (st : ResidualStats) : Bool :=
  if st.zeroMass < s.zeroMassMin then true
  else if s.meanAbsMax < st.meanAbs then true
  else if s.p95Max < st.p95 ∨ s.p99Max < st.p99 then true
  else false

/-- `FrameDecisionEngine::should_use_intra_rate` (decision.cpp:71-81):
the threshold starts at the intra EMA and is lowered by the hysteresis
only when the last mode was USE_RESIDUAL; intra is signalled when
`bps_res + margin_bpp >= thresh`. -/
def should_use_intra_rate (s : DecisionState) (st : ResidualStats) : Bool :=
  decide ((if s.lastMode = FrameMode.USE_RESIDUAL
            then s.bpsIntraEma - s.hysteresisBpp
            else s.bpsIntraEma) ≤ st.bpsRes + s.marginBpp)

/-- `FrameDecisionEngine::decide_mode` (decision.cpp:13-36).  The probe
branch (decision.cpp:27-31) has an empty body in the source and therefore
no effect on the result. -/
def decide_mode (s : DecisionState) (st : ResidualStats) (frameIndex : ℕ) :
    FrameMode :=
  if should_force_periodic s frameIndex then .USE_INTRA
  else if should_force_heuristic s st then .USE_INTRA
  else if should_use_intra_rate s st then .USE_INTRA
  else .USE_RESIDUAL

/-- `FrameDecisionEngine::update_intra_bpp` (decision.cpp:38-44). -/
def update_intra_bpp (s : DecisionState) (keyframeBytes w h : ℕ) :
    DecisionState :=
  { s with
    bpsIntraEma := (1 - s.emaAlpha) * s.bpsIntraEma +
      s.emaAlpha * ((keyframeBytes * 8 : ℚ) / (w * h))
    framesSinceKey := 0
    lastMode := .USE_INTRA }

/-- `FrameDecisionEngine::mark_residual` (decision.cpp:46-49). -/
def mark_residual (s : DecisionState) : DecisionState :=
  { s with framesSinceKey := s.framesSinceKey + 1, lastMode := .USE_RESIDUAL }

end Decision

namespace Config

/-- The decision-relevant fields of `CompressionConfig` (config.hpp:16-69),
as read by the config.cpp `FrameDecisionEngine`. -/
structure EngineConfig where
  gopPeriod : ℕ
  p95Threshold : ℚ
  p99Threshold : ℚ
  entropyThreshold : ℚ
  hysteresisBpp : ℚ
deriving DecidableEq, Repr

/-- The private state of the config.cpp `FrameDecisionEngine`
(config.hpp:103-111). -/
structure EngineState where
  lastKeyframeIndex : ℕ
  framesSinceKeyframe : ℕ
  lastDecision : FrameMode
  emaResidualBpp : ℚ
  emaKeyframeBpp : ℚ
  emaInitialized : Bool
deriving DecidableEq, Repr

/-- The config.cpp `FrameDecisionEngine` constructor (config.cpp:140-149). -/
def initState : EngineState :=
  { lastKeyframeIndex := 0
    framesSinceKeyframe := 0
    lastDecision := .USE_INTRA
    emaResidualBpp := 0
    emaKeyframeBpp := 0
    emaInitialized := false }

/-- `FrameDecisionEngine::decide_mode` (config.cpp:151-196).  The member
counter is pre-incremented; Stage 1 tests only the counter against
`gop_period` (there is no frame-index modulus test in this engine);
Stage 2 tests p95, p99 and entropy; Stage 3, only once an EMA sample
exists, subtracts the hysteresis from the keyframe EMA when the last
decision was USE_INTRA and adds it otherwise, then compares the residual
EMA strictly against that threshold. -/
def decide_mode (cfg : EngineConfig) (s : EngineState) (st : ResidualStats)
    (frameIndex : ℕ) : FrameMode × EngineState :=
  if cfg.gopPeriod ≤ s.framesSinceKeyframe + 1 then
    (.USE_INTRA,
      { s with
        framesSinceKeyframe := 0
        lastKeyframeIndex := frameIndex
        lastDecision := .USE_INTRA })
  else if cfg.p95Threshold < st.p95 ∨ cfg.p99Threshold < st.p99 ∨
      cfg.entropyThreshold < st.entropy then
    (.USE_INTRA,
      { s with
        framesSinceKeyframe := 0
        lastKeyframeIndex := frameIndex
        lastDecision := .USE_INTRA })
  else if s.emaInitialized = true ∧
      (if s.lastDecision = FrameMode.USE_INTRA
        then s.emaKeyframeBpp - cfg.hysteresisBpp
        else s.emaKeyframeBpp + cfg.hysteresisBpp) < s.emaResidualBpp then
    (.USE_INTRA,
      { s with
        framesSinceKeyframe := 0
        lastKeyframeIndex := frameIndex
        lastDecision := .USE_INTRA })
  else
    (.USE_RESIDUAL,
      { s with
        framesSinceKeyframe := s.framesSinceKeyframe + 1
        lastDecision := .USE_RESIDUAL })

/-- `FrameDecisionEngine::update_stats` (config.cpp:198-223).  The bits
per pixel are computed against a hardcoded 640 x 512 frame size (the
source comments: assuming 640x512 for now; should be configurable), with
EMA factor alpha = 0.1, and the first sample sets the corresponding EMA
directly. -/
def update_stats (compressedBytes : ℕ) (wasKeyframe : Bool)
    (s : EngineState) : EngineState :=
  let bitsPerPixel : ℚ := (compressedBytes * 8 : ℚ) / (640 * 512)
  let alpha : ℚ := 1 / 10
  if s.emaInitialized = false then
    if wasKeyframe then
      { s with emaKeyframeBpp := bitsPerPixel, emaInitialized := true }
    else
      { s with emaResidualBpp := bitsPerPixel, emaInitialized := true }
  else
    if wasKeyframe then
      { s with emaKeyframeBpp :=
          alpha * bitsPerPixel + (1 - alpha) * s.emaKeyframeBpp }
    else
      { s with emaResidualBpp :=
          alpha * bitsPerPixel + (1 - alpha) * s.emaResidualBpp }

/-- Sequential runs of the config.cpp engine over a list of per-frame
inputs (statistics and frame index), as the pipeline loop performs them;
returns the list of emitted modes. -/
def runModes (cfg : EngineConfig) (s : EngineState) :
    List (ResidualStats × ℕ) → List FrameMode
  | [] => []
  | x :: xs =>
    (decide_mode cfg s x.1 x.2).1 ::
      runModes cfg (decide_mode cfg s x.1 x.2).2 xs

end Config

/-- A residual-statistics record in which every field the decision engines
read is benign: no threshold in Stage 2 or 3 of either engine fires on it. -/
def benignStats : ResidualStats :=
  { mean := 0, p95 := 0, p99 := 0, entropy := 0, zeroMass := 1, meanAbs := 0
    bpsRes := 0 }

/-! ### Spec-words variants

Definitions that follow the specification text, for comparison with the
code-derived definitions above; each is used only to state that the code
differs from the claim. -/

/-- Modelled from the spec (section 4.6, Stage 3): threshold
`τ - hysteresis` after a residual frame, `τ + hysteresis` after an intra
frame, and intra iff `bps_res + margin ≥ threshold`. -/
def specStage3Intra (s : Decision.DecisionState) (st : ResidualStats) : Bool :=
  decide ((if s.lastMode = FrameMode.USE_RESIDUAL
            then s.bpsIntraEma - s.hysteresisBpp
            else s.bpsIntraEma + s.hysteresisBpp) ≤ st.bpsRes + s.marginBpp)

/-- Modelled from the spec (section 4.6, Stage 2): force intra iff any of
zero-mass, mean-abs, p95, p99 or entropy crosses its threshold. -/
def specStage2Force (s : Decision.DecisionState) (entropyMax : ℚ)
    (st : ResidualStats) : Bool :=
  decide (st.zeroMass < s.zeroMassMin) || decide (s.meanAbsMax < st.meanAbs) ||
    decide (s.p95Max < st.p95) || decide (s.p99Max < st.p99) ||
    decide (entropyMax < st.entropy)

/-- Modelled from the spec (section 4.6, EMA update): bits per pixel
computed from the actual width and height of the encoded frame. -/
def specUpdateStats (compressedBytes w h : ℕ) (wasKeyframe : Bool)
    (s : Config.EngineState) : Config.EngineState :=
  let bitsPerPixel : ℚ := (compressedBytes * 8 : ℚ) / (w * h)
  let alpha : ℚ := 1 / 10
  if s.emaInitialized = false then
    if wasKeyframe then
      { s with emaKeyframeBpp := bitsPerPixel, emaInitialized := true }
    else
      { s with emaResidualBpp := bitsPerPixel, emaInitialized := true }
  else
    if wasKeyframe then
      { s with emaKeyframeBpp :=
          alpha * bitsPerPixel + (1 - alpha) * s.emaKeyframeBpp }
    else
      { s with emaResidualBpp :=
          alpha * bitsPerPixel + (1 - alpha) * s.emaResidualBpp }

/-! ## Range mapper (bitdepth.cpp) -/

/-- `RangeMap` (bitdepth.hpp:26-37): min and max sample values; the
derived range is `max - min`. -/
structure RangeMap where
  minValue : ℕ
  maxValue : ℕ
deriving DecidableEq, Repr

/-- `RangeMap::range` (bitdepth.hpp:29, 36). -/
def RangeMap.range (m : RangeMap) : ℕ := m.maxValue - m.minValue

/-- `RangeMap::is_beneficial` (bitdepth.hpp:43-46): the map is used iff
`range < 32768`. -/
def RangeMap.isBeneficial (m : RangeMap) : Bool := decide (m.range < 32768)

/-- `compute_range_map` (bitdepth.cpp:12-28): min and max of the data,
starting from `data[0]`; `(0, 0)` on empty input. -/
def compute_range_map (data : List ℕ) : RangeMap :=
  match data with
  | [] => ⟨0, 0⟩
  | x :: xs => ⟨xs.foldl min x, xs.foldl max x⟩

/-- `map_to_12bit` (bitdepth.cpp:30-57):
`dst = ((src - min) * 4095 + range/2) / range`, all zeros when the range
is 0.  The C arithmetic is `uint32_t`; it is called only with the map
computed from `src` itself (encoder.cpp:210-214), so `src[i] ≥ min` and
every intermediate is below 2^32. -/
def map_to_12bit (src : List ℕ) (m : RangeMap) : List ℕ :=
  if m.range = 0 then src.map (fun _ => 0)
  else src.map (fun x => ((x - m.minValue) * 4095 + m.range / 2) / m.range)

/-- `map_from_12bit` (bitdepth.cpp:59-86):
`dst = uint16((src * range + 2047) / 4095 + min)`, all `min` when the
range is 0. -/
def map_from_12bit (src : List ℕ) (m : RangeMap) : List ℕ :=
  if m.range = 0 then src.map (fun _ => m.minValue)
  else src.map (fun y => ((y * m.range + 2047) / 4095 + m.minValue) % 65536)

/-! ## Frame codec (encoder.cpp)

The CharLS JPEG-LS coder lives outside the repository (spec section 4.4
treats it as an abstract symbol codec).  It is abstracted as a pair of
functions on sample lists; `idCodec` realizes the lossless behaviour that
`decode(encode(x)) = x`, which JPEG-LS guarantees at NEAR = 0. -/

/-- The abstract symbol codec: `encode_charls_16bit` /
`decode_charls_16bit` (encoder.cpp:24-177).  `enc` maps uint16 samples to
an abstract byte string (modelled as a list), `dec` maps it back and can
fail. -/
structure Codec where
  enc : List ℕ → List ℕ
  dec : List ℕ → Option (List ℕ)

/-- The lossless instantiation of the codec (NEAR = 0). -/
def idCodec : Codec := ⟨fun xs => xs, fun xs => some xs⟩

/-- `Frame` (frame.hpp:12-31). -/
structure LFrame where
  width : ℕ
  height : ℕ
  timestamp : ℕ
  frameIndex : ℕ
  data : List ℕ
deriving DecidableEq, Repr

/-- `CompressedFrame` (frame.hpp:36-59).  The C record stores `quant_Q`
as the double `Qfx / 2^fp`; `QuantizationParams` reconstructs
`Qfx = round(Q * 2^fp)` from it (residual.hpp:18-25), which round-trips
exactly (the double is an exact dyadic below 2^53), so the record is
modelled as carrying `Qfx` itself. -/
structure CompressedFrame where
  width : ℕ
  height : ℕ
  timestamp : ℕ
  frameIndex : ℕ
  isKeyframe : Bool
  nearLossless : ℕ
  quantQfx : ℕ
  deadZoneT : ℕ
  fpBits : ℕ
  useRangeMap : Bool
  rangeMin : ℕ
  rangeMax : ℕ
  compressedData : List ℕ
deriving DecidableEq, Repr

/-- The failure causes of the frame codec (spec section 7 names the kinds
`NoReference`, `DimensionMismatch`, and codec/decode failures; the C
methods report them through distinct `cerr` messages and return false). -/
inductive EncodeError where
  | NoReference
  | DimensionMismatch
  | DecodeFailure
deriving DecidableEq, Repr

/-- `FrameEncoder` state (encoder.hpp:128-130): the reference frame and
its initialized flag, modelled as an `Option`. -/
structure EncoderState where
  referenceFrame : Option LFrame
deriving DecidableEq, Repr

/-- `FrameEncoder::encode_intra_frame` (encoder.cpp:185-269): optionally
range-map to 12 bits when enabled and beneficial, encode, then decode the
emitted bytes (inverse-mapping if mapped) and store the result as the new
reference.  Failure paths return before touching the reference, so the
state is returned unchanged there. -/
def encode_intra_frame (c : Codec) (nearLossless : ℕ) (st : EncoderState)
    (f : LFrame) (enable12bitMode : Bool) :
    Except EncodeError CompressedFrame × EncoderState :=
  let rm := compute_range_map f.data
  let useMap := enable12bitMode && rm.isBeneficial
  let rangeMin := if useMap then rm.minValue else 0
  let rangeMax := if useMap then rm.maxValue else 65535
  let dataToEncode := if useMap then map_to_12bit f.data rm else f.data
  let bytes := c.enc dataToEncode
  match c.dec bytes with
  | none => (.error .DecodeFailure, st)
  | some decoded =>
    let refData :=
      if useMap then map_from_12bit decoded ⟨rangeMin, rangeMax⟩ else decoded
    (.ok
      { width := f.width, height := f.height, timestamp := f.timestamp
        frameIndex := f.frameIndex, isKeyframe := true
        nearLossless := nearLossless, quantQfx := 0, deadZoneT := 0
        fpBits := 0, useRangeMap := useMap, rangeMin := rangeMin
        rangeMax := rangeMax, compressedData := bytes },
      { referenceFrame := some
          { width := f.width, height := f.height, timestamp := f.timestamp
            frameIndex := f.frameIndex, data := refData } })

/-- `FrameEncoder::encode_residual_frame` (encoder.cpp:271-381).
Precondition failures (no reference, dimension mismatch) return the state
unchanged.  The residual is quantized, biased by +32768 and encoded.
With NEAR > 0 the emitted bytes are decoded back, unbiased, dequantized
and added to the reference (closed loop); with NEAR = 0 the code installs
the *input* frame as the new reference (the open-loop branch,
encoder.cpp:373-378).  The record leaves the range-map metadata at the
`CompressedFrame` defaults (false, 0, 65535). -/
def encode_residual_frame (c : Codec) (nearLossless : ℕ) (T Qfx fp : ℕ)
    (st : EncoderState) (f : LFrame) :
    Except EncodeError CompressedFrame × EncoderState :=
  match st.referenceFrame with
  | none => (.error .NoReference, st)
  | some ref =>
    if f.width = ref.width ∧ f.height = ref.height then
      let residual := List.zipWith computeResidualElem f.data ref.data
      let quantized := residual.map (quantizeElem T Qfx fp)
      let quantizedUnsigned := quantized.map biasElem
      let bytes := c.enc quantizedUnsigned
      let outputRecord : CompressedFrame :=
        { width := f.width, height := f.height, timestamp := f.timestamp
          frameIndex := f.frameIndex, isKeyframe := false
          nearLossless := nearLossless, quantQfx := Qfx, deadZoneT := T
          fpBits := fp, useRangeMap := false, rangeMin := 0
          rangeMax := 65535, compressedData := bytes }
      if 0 < nearLossless then
        match c.dec bytes with
        | none => (.error .DecodeFailure, st)
        | some decodedUnsigned =>
          let decodedQuantized := decodedUnsigned.map unbiasElem
          let reconstructedResidual :=
            decodedQuantized.map (dequantizeElem T Qfx fp)
          let reconstructedFrame :=
            List.zipWith reconstructElem ref.data reconstructedResidual
          (.ok outputRecord,
            { referenceFrame := some
                { ref with data := reconstructedFrame
                           timestamp := f.timestamp
                           frameIndex := f.frameIndex } })
      else
        (.ok outputRecord,
          { referenceFrame := some
              { ref with data := f.data
                         timestamp := f.timestamp
                         frameIndex := f.frameIndex } })
    else (.error .DimensionMismatch, st)

/-- `FrameEncoder::decode_frame` (encoder.cpp:400-473).  On a keyframe
record the compressed bytes are decoded and emitted directly: the code
neither applies the inverse range map nor stores a reference.  On a
residual record a reference must be present; the bytes are decoded,
unbiased, dequantized under the metadata of the record, added to the
reference with saturation, and the result both emitted and stored as the
new reference. -/
def decode_frame (c : Codec) (st : EncoderState) (rec : CompressedFrame) :
    Except EncodeError LFrame × EncoderState :=
  if rec.isKeyframe then
    match c.dec rec.compressedData with
    | none => (.error .DecodeFailure, st)
    | some samples =>
      (.ok
        { width := rec.width, height := rec.height
          timestamp := rec.timestamp, frameIndex := rec.frameIndex
          data := samples }, st)
  else
    match st.referenceFrame with
    | none => (.error .NoReference, st)
    | some ref =>
      match c.dec rec.compressedData with
      | none => (.error .DecodeFailure, st)
      | some decodedUnsigned =>
        let decodedQuantized := decodedUnsigned.map unbiasElem
        let reconstructedResidual :=
          decodedQuantized.map (dequantizeElem rec.deadZoneT rec.quantQfx rec.fpBits)
        let outData := List.zipWith reconstructElem ref.data reconstructedResidual
        (.ok
          { width := rec.width, height := rec.height
            timestamp := rec.timestamp, frameIndex := rec.frameIndex
            data := outData },
          { referenceFrame := some
              { ref with data := outData
                         timestamp := rec.timestamp
                         frameIndex := rec.frameIndex } })

/-- `FrameEncoder::reset` (encoder.cpp:475-479). -/
def reset (_ : EncoderState) : EncoderState := { referenceFrame := none }

/-- Wrap-around to int16 is the identity on the int16 range. -/
lemma int16ofInt_eq_self {x : ℤ} (h1 : -32768 ≤ x) (h2 : x ≤ 32767) :
    int16ofInt x = x := by
  unfold int16ofInt
  omega

/-- uint32 reduction is the identity below 2^32. -/
lemma u32_eq_self {n : ℕ} (h : n < 2 ^ 32) : u32 n = n := Nat.mod_eq_of_lt h

/-- uint32 → int32 reinterpretation is the identity below 2^31. -/
lemma i32ofNat_eq_self {n : ℕ} (h : n < 2 ^ 31) : i32ofNat n = (n : ℤ) := by
  have h32 : n % 2 ^ 32 = n := Nat.mod_eq_of_lt (by omega)
  unfold i32ofNat
  rw [h32, if_pos h]

/-- Arithmetic core of the quantize/dequantize round trip, at the level of
magnitudes.  For `a = |r|`, writing `a2` for the dead-zoned magnitude,
`num` for the rounded fixed-point numerator, `q` for the quantized
magnitude and `d` for the dequantized step part, the lemma packages the
overflow-freedom facts and the reconstruction bounds `d + T/2 ≤ a` and
`a ≤ d + T/2 + (T + ⌈Qfx / 2^fp⌉)`. -/
lemma quant_bounds (T Qfx fp a : ℕ)
    (ha : a ≤ 32768) (hT : T < 2 ^ 15) (hfp1 : 1 ≤ fp) (hfp16 : fp ≤ 16)
    (hQ : 2 ^ fp ≤ Qfx) :
    ((a - T) * 2 ^ fp + 2 ^ (fp - 1)) / Qfx ≤ a - T ∧
    (a - T) * 2 ^ fp + 2 ^ (fp - 1) < 2 ^ 32 ∧
    (((a - T) * 2 ^ fp + 2 ^ (fp - 1)) / Qfx = 0 →
      a ≤ T + (Qfx + 2 ^ fp - 1) / 2 ^ fp) ∧
    (1 ≤ ((a - T) * 2 ^ fp + 2 ^ (fp - 1)) / Qfx →
      ((a - T) * 2 ^ fp + 2 ^ (fp - 1)) / Qfx * Qfx / 2 ^ fp + T / 2 ≤ a ∧
      a ≤ ((a - T) * 2 ^ fp + 2 ^ (fp - 1)) / Qfx * Qfx / 2 ^ fp + T / 2 +
          (T + (Qfx + 2 ^ fp - 1) / 2 ^ fp)) := by
  obtain ⟨P, hP⟩ : ∃ x, 2 ^ fp = x := ⟨_, rfl⟩
  obtain ⟨H, hH⟩ : ∃ x, 2 ^ (fp - 1) = x := ⟨_, rfl⟩
  rw [hP] at hQ ⊢
  rw [hH]
  obtain ⟨a2, ha2⟩ : ∃ x, a - T = x := ⟨_, rfl⟩
  rw [ha2]
  obtain ⟨q, hq⟩ : ∃ x, (a2 * P + H) / Qfx = x := ⟨_, rfl⟩
  rw [hq]
  obtain ⟨d, hd⟩ : ∃ x, q * Qfx / P = x := ⟨_, rfl⟩
  rw [hd]
  obtain ⟨C, hC⟩ : ∃ x, (Qfx + P - 1) / P = x := ⟨_, rfl⟩
  rw [hC]
  have hPH : P = 2 * H := by
    rw [← hP, ← hH, ← pow_succ']
    congr 1
    omega
  have hHpos : 0 < H := hH ▸ pow_pos (by norm_num) _
  have hPpos : 0 < P := by omega
  have hQpos : 0 < Qfx := by omega
  have hP65536 : P ≤ 65536 := by
    rw [← hP]
    calc (2 : ℕ) ^ fp ≤ 2 ^ 16 := Nat.pow_le_pow_right (by norm_num) hfp16
    _ = 65536 := by norm_num
  have ha2le : a2 ≤ 32768 := by omega
  have hHle : H ≤ 65536 := by omega
  have hnum32 : a2 * P + H < 2 ^ 32 :=
    lt_of_le_of_lt (Nat.add_le_add (Nat.mul_le_mul ha2le hP65536) hHle)
      (by norm_num)
  have hnumP : (a2 * P + H) / P = a2 := by
    rw [Nat.mul_comm a2 P, Nat.mul_add_div hPpos,
      Nat.div_eq_of_lt (show H < P by omega), Nat.add_zero]
  have hq_le_a2 : q ≤ a2 := by
    have hstep : (a2 * P + H) / Qfx ≤ (a2 * P + H) / P :=
      Nat.div_le_div_left hQ hPpos
    rw [hq, hnumP] at hstep
    exact hstep
  refine ⟨hq_le_a2, hnum32, ?_, ?_⟩
  · intro h0
    by_cases haT : a ≤ T
    · exact le_trans haT (Nat.le_add_right _ _)
    · have hnumlt : a2 * P + H < Qfx := by
        rw [← hq] at h0
        exact (Nat.div_eq_zero_iff hQpos).1 h0
      have hA2P : a2 * P < Qfx := lt_of_le_of_lt (Nat.le_add_right _ _) hnumlt
      have hC' : a2 ≤ C := by
        rw [← hC, Nat.le_div_iff_mul_le hPpos]
        exact le_trans (le_of_lt hA2P) (by omega)
      have haa : a = T + a2 := by omega
      rw [haa]
      exact Nat.add_le_add_left hC' T
  · intro hq1
    have hQ_le_num : Qfx ≤ a2 * P + H := by
      rw [← hq] at hq1
      exact (Nat.one_le_div_iff hQpos).1 hq1
    have ha2pos : 1 ≤ a2 := by
      by_contra h
      push_neg at h
      have ha20 : a2 = 0 := by omega
      rw [ha20, Nat.zero_mul, Nat.zero_add] at hQ_le_num
      omega
    have haT : T < a := by omega
    have hqQle : q * Qfx ≤ a2 * P + H := by
      rw [← hq]
      exact Nat.div_mul_le_self _ _
    have hd_le_a2 : d ≤ a2 := by
      have hstep : q * Qfx / P ≤ (a2 * P + H) / P := Nat.div_le_div_right hqQle
      rw [hd, hnumP] at hstep
      exact hstep
    refine ⟨by omega, ?_⟩
    obtain ⟨m1, hm1e⟩ : ∃ x, (a2 * P + H) % Qfx = x := ⟨_, rfl⟩
    have hm1 : m1 < Qfx := hm1e ▸ Nat.mod_lt _ hQpos
    have f1 := Nat.div_add_mod (a2 * P + H) Qfx
    rw [hq, hm1e, Nat.mul_comm Qfx q] at f1
    obtain ⟨m2, hm2e⟩ : ∃ x, q * Qfx % P = x := ⟨_, rfl⟩
    have hm2 : m2 < P := hm2e ▸ Nat.mod_lt _ hPpos
    have f2 := Nat.div_add_mod (q * Qfx) P
    rw [hd, hm2e] at f2
    obtain ⟨m3, hm3e⟩ : ∃ x, (Qfx + P - 1) % P = x := ⟨_, rfl⟩
    have hm3 : m3 < P := hm3e ▸ Nat.mod_lt _ hPpos
    have f3 := Nat.div_add_mod (Qfx + P - 1) P
    rw [hC, hm3e] at f3
    have hmul : a2 * P < (d + C + 1) * P := by
      have e : (d + C + 1) * P = P * d + P * C + P := by ring
      rw [e]
      obtain ⟨AP, hAP⟩ : ∃ x, a2 * P = x := ⟨_, rfl⟩
      obtain ⟨QQ, hQQ⟩ : ∃ x, q * Qfx = x := ⟨_, rfl⟩
      obtain ⟨PD, hPD⟩ : ∃ x, P * d = x := ⟨_, rfl⟩
      obtain ⟨PC, hPC⟩ : ∃ x, P * C = x := ⟨_, rfl⟩
      rw [hAP] at f1 hQ_le_num hqQle ⊢
      rw [hQQ] at f1 f2 hqQle
      rw [hPD] at f2 ⊢
      rw [hPC] at f3 ⊢
      omega
    have hfin := lt_of_mul_lt_mul_right hmul (Nat.zero_le P)
    omega

/-- Claim C3 (counterexample): with Q = 2 stored as Qfx = 512, T = 2,
fp = 8, quantizing the residual 5 does not give round(3/2) = 2 with exact
reconstruction; the fixed-point code divides (3·2^8 + 2^7) by 512 and gets
1, so the dequantized residual is 3 and a +5 pixel step reconstructs 2 low. -/
theorem c3_counterexample :
    ¬(quantizeElem 2 512 8 5 = 2 ∧
      dequantizeElem 2 512 8 (quantizeElem 2 512 8 5) = 5 ∧
      reconstructElem 1000 (dequantizeElem 2 512 8 (quantizeElem 2 512 8 5)) = 1005) := by
  decide

/-- Claim C3 (amended): with Q = 2 (Qfx = 512), T = 2, fp = 8 the residual
r = 5 has dead-zoned magnitude 3 and quantizes to
q = (3·2^8 + 2^7) / 512 = 1; dequantization gives
r-hat = (1·512) / 2^8 + 2/2 = 3, and the reconstruction of a pixel that
moved from 1000 to 1005 is 1003, short of exact by 2. -/
theorem c3_amended :
    quantizeElem 2 512 8 5 = 1 ∧
    dequantizeElem 2 512 8 (quantizeElem 2 512 8 5) = 3 ∧
    reconstructElem 1000 (dequantizeElem 2 512 8 (quantizeElem 2 512 8 5)) = 1003 := by
  decide

/-- Claim C4 (counterexample): the claimed round-trip bound
|r - dequant(quant(r))| ≤ T + ⌈Q/2⌉ fails at r = 9, T = 0, Q = 10
(Qfx = 2560, fp = 8): the parameters satisfy 0 ≤ T < 2^15 and Q ≥ 1, the
dead-zoned magnitude 9 quantizes to (9·2^8 + 2^7)/2560 = 0, so the
reconstruction is 0 and the error is 9, exceeding T + ⌈Q/2⌉ = 5. -/
theorem c4_counterexample :
    2 ^ 8 ≤ 2560 ∧ (0 : ℕ) < 2 ^ 15 ∧
    dequantizeElem 0 2560 8 (quantizeElem 0 2560 8 9) = 0 ∧
    ¬(|(9 : ℤ) - dequantizeElem 0 2560 8 (quantizeElem 0 2560 8 9)| ≤
        (0 : ℤ) + ((2560 + 2 ^ (8 + 1) - 1) / 2 ^ (8 + 1) : ℕ)) := by
  decide

/-- Claim C4 (amended): for every int16 residual r and parameters with
0 ≤ T < 2^15, fp ∈ [1, 16] and Q ≥ 1 (that is, 2^fp ≤ Qfx), the
quantize-then-dequantize round trip satisfies
|r - dequant(quant(r))| ≤ T + ⌈Q⌉, where ⌈Q⌉ = ⌈Qfx / 2^fp⌉.  The
deficit against the claimed T + ⌈Q/2⌉ comes from the quantizer rounding
constant: the code adds 2^(fp-1) (half a quantization *unit*) instead of
Qfx/2 (half a *step*), so the zero bin spans magnitudes up to Q - 1/2
beyond the dead zone rather than Q/2. -/
theorem c4_amended (r : ℤ) (T Qfx fp : ℕ)
    (hr1 : -32768 ≤ r) (hr2 : r ≤ 32767)
    (hT : T < 2 ^ 15) (hfp1 : 1 ≤ fp) (hfp16 : fp ≤ 16) (hQ : 2 ^ fp ≤ Qfx) :
    |r - dequantizeElem T Qfx fp (quantizeElem T Qfx fp r)| ≤
      (T : ℤ) + ((Qfx + 2 ^ fp - 1) / 2 ^ fp : ℕ) := by
  obtain ⟨hqa2, hnum32, hzero, hpos1⟩ :=
    quant_bounds T Qfx fp r.natAbs (by omega) hT hfp1 hfp16 hQ
  have ha32768 : r.natAbs ≤ 32768 := by omega
  have hPpos : 0 < 2 ^ fp := pow_pos (by norm_num) fp
  have hQpos : 0 < Qfx := lt_of_lt_of_le hPpos hQ
  have w1 : u32 ((r.natAbs - T) * 2 ^ fp) = (r.natAbs - T) * 2 ^ fp :=
    u32_eq_self (lt_of_le_of_lt (Nat.le_add_right _ _) hnum32)
  have w2 : u32 ((r.natAbs - T) * 2 ^ fp + 2 ^ (fp - 1)) =
      (r.natAbs - T) * 2 ^ fp + 2 ^ (fp - 1) := u32_eq_self hnum32
  obtain ⟨a2, ha2v⟩ : ∃ x, r.natAbs - T = x := ⟨_, rfl⟩
  rw [ha2v] at hqa2 w1 w2 hnum32 hzero hpos1
  obtain ⟨qv, hqv⟩ : ∃ x, (a2 * 2 ^ fp + 2 ^ (fp - 1)) / Qfx = x := ⟨_, rfl⟩
  rw [hqv] at hqa2 hzero hpos1
  have hqQ32 : qv * Qfx < 2 ^ 32 := by
    rw [← hqv]
    exact lt_of_le_of_lt (Nat.div_mul_le_self _ _) hnum32
  obtain ⟨dv, hdv⟩ : ∃ x, qv * Qfx / 2 ^ fp = x := ⟨_, rfl⟩
  rw [hdv] at hpos1
  obtain ⟨Cv, hCv⟩ : ∃ x, (Qfx + 2 ^ fp - 1) / 2 ^ fp = x := ⟨_, rfl⟩
  rw [hCv] at hzero hpos1 ⊢
  have hq31 : qv < 2 ^ 31 := by omega
  rcases Nat.eq_zero_or_pos qv with hq0 | hq1
  · have hA : quantizeElem T Qfx fp r = 0 := by
      unfold quantizeElem
      rw [ha2v, w1, w2, hqv, hq0]
      have h0 : i32ofNat 0 = 0 := by decide
      rw [h0, mul_zero]
      decide
    rw [hA]
    have hB : dequantizeElem T Qfx fp 0 = 0 := by simp [dequantizeElem]
    rw [hB]
    have hbound := hzero hq0
    refine abs_le.2 ⟨by omega, by omega⟩
  · obtain ⟨hL, hR⟩ := hpos1 hq1
    have hd32 : dv + T / 2 < 2 ^ 31 := by omega
    rcases le_or_lt 0 r with hsr | hsr
    · have ha32767 : r.natAbs ≤ 32767 := by omega
      have hA : quantizeElem T Qfx fp r = ((qv : ℕ) : ℤ) := by
        unfold quantizeElem
        rw [ha2v, w1, w2, hqv, if_pos hsr, one_mul, i32ofNat_eq_self hq31]
        exact int16ofInt_eq_self (by omega) (by omega)
      rw [hA]
      have hB : dequantizeElem T Qfx fp ((qv : ℕ) : ℤ) =
          ((dv + T / 2 : ℕ) : ℤ) := by
        unfold dequantizeElem
        rw [if_neg (by omega), if_pos (by omega), one_mul, Int.natAbs_ofNat]
        rw [u32_eq_self hqQ32, hdv, u32_eq_self (by omega),
          i32ofNat_eq_self hd32]
        exact int16ofInt_eq_self (by omega) (by omega)
      rw [hB]
      refine abs_le.2 ⟨by omega, by omega⟩
    · have hA : quantizeElem T Qfx fp r = -((qv : ℕ) : ℤ) := by
        unfold quantizeElem
        rw [ha2v, w1, w2, hqv, if_neg (by omega), i32ofNat_eq_self hq31,
          neg_one_mul]
        exact int16ofInt_eq_self (by omega) (by omega)
      rw [hA]
      have hB : dequantizeElem T Qfx fp (-((qv : ℕ) : ℤ)) =
          -((dv + T / 2 : ℕ) : ℤ) := by
        unfold dequantizeElem
        rw [if_neg (by omega), if_neg (by omega), Int.natAbs_neg,
          Int.natAbs_ofNat]
        rw [u32_eq_self hqQ32, hdv, u32_eq_self (by omega),
          i32ofNat_eq_self hd32, neg_one_mul]
        exact int16ofInt_eq_self (by omega) (by omega)
      rw [hB]
      refine abs_le.2 ⟨by omega, by omega⟩

/-- Claim C4 (witness): the amended bound at r = 9, T = 0, Qfx = 2560,
fp = 8, where the error is 9 and the bound T + ⌈Q⌉ is 10. -/
theorem c4_amended_witness :
    |(9 : ℤ) - dequantizeElem 0 2560 8 (quantizeElem 0 2560 8 9)| ≤
      (0 : ℤ) + ((2560 + 2 ^ 8 - 1) / 2 ^ 8 : ℕ) :=
  c4_amended 9 0 2560 8 (by decide) (by decide) (by decide) (by decide)
    (by decide) (by decide)

/-- Claim C5 (counterexample): with the last mode USE_INTRA, intra EMA
2.5, hysteresis 0.125 and margin 0.25 (all exact dyadic doubles), a
residual bpp proxy of 2.3125 makes the code choose intra (2.3125 + 0.25 ≥
2.5) while the claimed rule, whose threshold after intra is 2.5 + 0.125,
chooses residual. -/
theorem c5_counterexample :
    Decision.should_use_intra_rate
        { Decision.defaultState with hysteresisBpp := 1 / 8, marginBpp := 1 / 4 }
        { benignStats with bpsRes := 37 / 16 } = true ∧
    specStage3Intra
        { Decision.defaultState with hysteresisBpp := 1 / 8, marginBpp := 1 / 4 }
        { benignStats with bpsRes := 37 / 16 } = false := by
  constructor
  · norm_num [Decision.should_use_intra_rate, Decision.defaultState,
      benignStats]
    rw [if_neg (by decide : ¬(FrameMode.USE_INTRA = FrameMode.USE_RESIDUAL))]
    norm_num
  · norm_num [specStage3Intra, Decision.defaultState, benignStats]
    rw [if_neg (by decide : ¬(FrameMode.USE_INTRA = FrameMode.USE_RESIDUAL))]
    norm_num

/-- Claim C5 (amended): in Stage 3 of decision.cpp, when neither the
periodic nor the heuristic stage fires, the comparison threshold is the
intra EMA minus hysteresis_bpp when the last mode was USE_RESIDUAL and
the intra EMA unchanged when it was USE_INTRA (no hysteresis is added);
intra is chosen iff bps_res + margin_bpp is at least that threshold. -/
theorem c5_amended (s : Decision.DecisionState) (st : ResidualStats) (i : ℕ)
    (hper : Decision.should_force_periodic s i = false)
    (hheu : Decision.should_force_heuristic s st = false) :
    Decision.decide_mode s st i = FrameMode.USE_INTRA ↔
      (if s.lastMode = FrameMode.USE_RESIDUAL
        then s.bpsIntraEma - s.hysteresisBpp
        else s.bpsIntraEma) ≤ st.bpsRes + s.marginBpp := by
  unfold Decision.decide_mode Decision.should_use_intra_rate
  rw [hper, hheu]
  simp

/-- Claim C5 (witness): the amended Stage 3 rule at the counterexample
state, where the code picks intra because the proxy 2.5625 meets the
unmodified threshold 2.5. -/
theorem c5_amended_witness :
    Decision.decide_mode
        { Decision.defaultState with hysteresisBpp := 1 / 8, marginBpp := 1 / 4 }
        { benignStats with bpsRes := 37 / 16 } 5 = FrameMode.USE_INTRA ↔
      (if ({ Decision.defaultState with
              hysteresisBpp := 1 / 8, marginBpp := 1 / 4 } :
            Decision.DecisionState).lastMode = FrameMode.USE_RESIDUAL
        then (5 : ℚ) / 2 - 1 / 8
        else (5 : ℚ) / 2) ≤ 37 / 16 + 1 / 4 :=
  c5_amended _ _ 5 (by decide)
    (by norm_num [Decision.should_force_heuristic, Decision.defaultState,
      benignStats])

/-- Claim C6 (counterexample): a residual-statistics record whose entropy
is 100 bits but whose zero-mass, mean-abs, p95 and p99 are all benign is
not forced to intra by `should_force_heuristic` (the code never reads the
entropy), although the claimed five-way disjunction (entropy_max = 6)
holds. -/
theorem c6_counterexample :
    Decision.should_force_heuristic Decision.defaultState
        { benignStats with entropy := 100 } = false ∧
    specStage2Force Decision.defaultState 6
        { benignStats with entropy := 100 } = true := by
  refine ⟨?_, ?_⟩ <;>
    norm_num [Decision.should_force_heuristic, specStage2Force,
      Decision.defaultState, benignStats]

/-- Claim C6 (amended): `should_force_heuristic` forces USE_INTRA iff
zero_mass < zero_mass_min, mean_abs > mean_abs_max, p95 > p95_max or
p99 > p99_max; the entropy statistic is not consulted by this stage. -/
theorem c6_amended (s : Decision.DecisionState) (st : ResidualStats) :
    Decision.should_force_heuristic s st = true ↔
      (st.zeroMass < s.zeroMassMin ∨ s.meanAbsMax < st.meanAbs ∨
        s.p95Max < st.p95 ∨ s.p99Max < st.p99) := by
  unfold Decision.should_force_heuristic
  split_ifs with h1 h2 h3 <;> simp_all

/-- Claim C7 (counterexample): a 40960-byte keyframe of a 4 x 2 frame.
The engine records an intra EMA of 1 bpp (it always divides by
640 x 512), while the claimed rule using the actual frame dimensions
would record 40960 bpp. -/
theorem c7_counterexample :
    (Config.update_stats 40960 true Config.initState).emaKeyframeBpp = 1 ∧
    (specUpdateStats 40960 4 2 true Config.initState).emaKeyframeBpp = 40960 ∧
    (1 : ℚ) ≠ 40960 := by
  refine ⟨?_, ?_, ?_⟩ <;>
    norm_num [Config.update_stats, specUpdateStats, Config.initState]

/-- Claim C7 (amended): `update_stats` computes
bpp = 8 * bytes / (640 * 512) with a hardcoded 640 x 512 frame size
regardless of the dimensions of the encoded frame; the first sample sets
the corresponding EMA directly, and later samples update the keyframe EMA
on keyframes and the residual EMA otherwise with alpha = 0.1. -/
theorem c7_amended (bytes : ℕ) (wasKeyframe : Bool) (s : Config.EngineState) :
    (s.emaInitialized = false →
      Config.update_stats bytes wasKeyframe s =
        (if wasKeyframe then
          { s with emaKeyframeBpp := (bytes * 8 : ℚ) / (640 * 512)
                   emaInitialized := true }
          else
          { s with emaResidualBpp := (bytes * 8 : ℚ) / (640 * 512)
                   emaInitialized := true })) ∧
    (s.emaInitialized = true →
      Config.update_stats bytes wasKeyframe s =
        (if wasKeyframe then
          { s with emaKeyframeBpp :=
              (1 / 10) * ((bytes * 8 : ℚ) / (640 * 512)) +
                (1 - 1 / 10) * s.emaKeyframeBpp }
          else
          { s with emaResidualBpp :=
              (1 / 10) * ((bytes * 8 : ℚ) / (640 * 512)) +
                (1 - 1 / 10) * s.emaResidualBpp })) := by
  constructor <;> intro h <;> cases wasKeyframe <;>
    simp [Config.update_stats, h]

/-- Claim C7 (witness): the amended update at the first keyframe sample
of 40960 bytes. -/
theorem c7_amended_witness :
    Config.update_stats 40960 true Config.initState =
      (if true then
        { Config.initState with
            emaKeyframeBpp := ((40960 : ℕ) * 8 : ℚ) / (640 * 512)
            emaInitialized := true }
        else
        { Config.initState with
            emaResidualBpp := ((40960 : ℕ) * 8 : ℚ) / (640 * 512)
            emaInitialized := true }) :=
  (c7_amended 40960 true Config.initState).1 rfl

/-- One step of the config.cpp engine: an intra decision resets the
since-keyframe counter, a residual decision increments it and can only
happen while the incremented counter is below gop_period, and reaching
gop_period forces intra. -/
lemma decide_mode_step (cfg : Config.EngineConfig) (s : Config.EngineState)
    (st : ResidualStats) (i : ℕ) :
    ((Config.decide_mode cfg s st i).1 = FrameMode.USE_INTRA →
      (Config.decide_mode cfg s st i).2.framesSinceKeyframe = 0) ∧
    ((Config.decide_mode cfg s st i).1 = FrameMode.USE_RESIDUAL →
      (Config.decide_mode cfg s st i).2.framesSinceKeyframe =
        s.framesSinceKeyframe + 1 ∧
      s.framesSinceKeyframe + 1 < cfg.gopPeriod) ∧
    (cfg.gopPeriod ≤ s.framesSinceKeyframe + 1 →
      (Config.decide_mode cfg s st i).1 = FrameMode.USE_INTRA) := by
  unfold Config.decide_mode
  split_ifs with h1 h2 h3 <;>
    refine ⟨?_, ?_, ?_⟩ <;> intro h <;> simp_all

/-- In a run of the config.cpp engine, an initial block of j+1 consecutive
USE_RESIDUAL decisions pushes the counter to its initial value plus j+1,
which stays strictly below gop_period. -/
lemma runModes_allResidual (cfg : Config.EngineConfig) :
    ∀ (inputs : List (ResidualStats × ℕ)) (s : Config.EngineState) (j : ℕ),
      j < (Config.runModes cfg s inputs).length →
      (∀ k, k ≤ j →
        (Config.runModes cfg s inputs).getD k FrameMode.USE_INTRA =
          FrameMode.USE_RESIDUAL) →
      s.framesSinceKeyframe + (j + 1) < cfg.gopPeriod := by
  intro inputs
  induction inputs with
  | nil =>
    intro s j hj _
    simp [Config.runModes] at hj
  | cons x xs ih =>
    intro s j hj hall
    have h0 := hall 0 (Nat.zero_le _)
    simp only [Config.runModes, List.getD_cons_zero] at h0
    obtain ⟨heq, hlt⟩ := (decide_mode_step cfg s x.1 x.2).2.1 h0
    cases j with
    | zero => omega
    | succ j' =>
      have hj' : j' < (Config.runModes cfg
          (Config.decide_mode cfg s x.1 x.2).2 xs).length := by
        simp only [Config.runModes, List.length_cons] at hj
        omega
      have hall' : ∀ k, k ≤ j' →
          (Config.runModes cfg (Config.decide_mode cfg s x.1 x.2).2
            xs).getD k FrameMode.USE_INTRA = FrameMode.USE_RESIDUAL := by
        intro k hk
        have := hall (k + 1) (by omega)
        simpa only [Config.runModes, List.getD_cons_succ] using this
      have hrest := ih (Config.decide_mode cfg s x.1 x.2).2 j' hj' hall'
      rw [heq] at hrest
      omega

/-- Claim C8 (amended): in every run of the config.cpp decision engine,
strictly fewer than gop_period USE_RESIDUAL decisions occur between any
two successive USE_INTRA decisions; Stage 1 forces intra exactly when the
pre-incremented since-keyframe counter reaches gop_period (this engine
has no frame-index modulus test), and the counter is reset on every intra
emission and incremented on every residual emission. -/
theorem c8_amended :
    (∀ (cfg : Config.EngineConfig) (s : Config.EngineState)
      (inputs : List (ResidualStats × ℕ)) (i j : ℕ),
      i < j →
      j < (Config.runModes cfg s inputs).length →
      (Config.runModes cfg s inputs).getD i FrameMode.USE_INTRA =
        FrameMode.USE_INTRA →
      (Config.runModes cfg s inputs).getD j FrameMode.USE_INTRA =
        FrameMode.USE_INTRA →
      (∀ k, i < k → k < j →
        (Config.runModes cfg s inputs).getD k FrameMode.USE_INTRA =
          FrameMode.USE_RESIDUAL) →
      1 ≤ cfg.gopPeriod →
      j - i - 1 < cfg.gopPeriod) ∧
    (∀ (cfg : Config.EngineConfig) (s : Config.EngineState)
      (st : ResidualStats) (idx : ℕ),
      (cfg.gopPeriod ≤ s.framesSinceKeyframe + 1 →
        (Config.decide_mode cfg s st idx).1 = FrameMode.USE_INTRA) ∧
      ((Config.decide_mode cfg s st idx).1 = FrameMode.USE_INTRA →
        (Config.decide_mode cfg s st idx).2.framesSinceKeyframe = 0) ∧
      ((Config.decide_mode cfg s st idx).1 = FrameMode.USE_RESIDUAL →
        (Config.decide_mode cfg s st idx).2.framesSinceKeyframe =
          s.framesSinceKeyframe + 1 ∧
        s.framesSinceKeyframe + 1 < cfg.gopPeriod)) := by
  constructor
  · intro cfg s inputs
    induction inputs generalizing s with
    | nil =>
      intro i j _ hj _ _ _ _
      simp [Config.runModes] at hj
    | cons x xs ih =>
      intro i j hij hj hi hjI hbet hgop
      cases i with
      | zero =>
        have hhead : (Config.decide_mode cfg s x.1 x.2).1 =
            FrameMode.USE_INTRA := by
          simpa only [Config.runModes, List.getD_cons_zero] using hi
        have hs0 := (decide_mode_step cfg s x.1 x.2).1 hhead
        cases j with
        | zero => omega
        | succ j' =>
          rcases Nat.eq_zero_or_pos j' with hj0 | hj'pos
          · subst hj0
            omega
          · have hrun := runModes_allResidual cfg xs
              (Config.decide_mode cfg s x.1 x.2).2 (j' - 1)
              (by
                simp only [Config.runModes, List.length_cons] at hj
                omega)
              (fun k hk => by
                have := hbet (k + 1) (by omega) (by omega)
                simpa only [Config.runModes, List.getD_cons_succ] using this)
            rw [hs0] at hrun
            omega
      | succ i' =>
        cases j with
        | zero => omega
        | succ j' =>
          have := ih (Config.decide_mode cfg s x.1 x.2).2 i' j' (by omega)
            (by
              simp only [Config.runModes, List.length_cons] at hj
              omega)
            (by simpa only [Config.runModes, List.getD_cons_succ] using hi)
            (by simpa only [Config.runModes, List.getD_cons_succ] using hjI)
            (fun k hk1 hk2 => by
              have := hbet (k + 1) (by omega) (by omega)
              simpa only [Config.runModes, List.getD_cons_succ] using this)
            hgop
          omega
  · intro cfg s st idx
    obtain ⟨h1, h2, h3⟩ := decide_mode_step cfg s st idx
    exact ⟨h3, h1, h2⟩

/-- Claim C8 (witness): with gop_period = 1 every decision is intra and
two successive intra decisions enclose zero residuals; and one step from
a counter of 0 under gop_period = 1 yields intra. -/
theorem c8_amended_witness :
    (1 : ℕ) - 0 - 1 < 1 ∧
    (Config.decide_mode ⟨1, 30, 100, 6, 0⟩ Config.initState benignStats
        0).1 = FrameMode.USE_INTRA :=
  ⟨c8_amended.1 ⟨1, 30, 100, 6, 0⟩ Config.initState
      [(benignStats, 0), (benignStats, 1)] 0 1 (by decide) (by decide)
      (by decide) (by decide)
      (fun k hk1 hk2 => absurd hk2 (by omega)) (by decide),
    (c8_amended.2 ⟨1, 30, 100, 6, 0⟩ Config.initState benignStats 0).1
      (by decide)⟩

/-- Claim C8 (counterexample): with gop_period = 3, a run of the engine
on consecutive frame indices 1..6 in which frame 4 triggers a heuristic
intra decides USE_RESIDUAL at frame index 6, although 6 % 3 = 0 — the
claimed index-modulus part of Stage 1 does not exist in the engine the
pipeline runs. -/
theorem c8_counterexample :
    (Config.runModes ⟨3, 30, 100, 6, 0⟩ Config.initState
        [(benignStats, 1), (benignStats, 2), (benignStats, 3),
          ({ benignStats with p95 := 1000 }, 4), (benignStats, 5),
          (benignStats, 6)]).getD 5 FrameMode.USE_INTRA =
      FrameMode.USE_RESIDUAL ∧ 6 % 3 = 0 := by
  decide

/-- Claim C9: residual encoding with no reference fails with NoReference
and with mismatched dimensions fails with DimensionMismatch; decoding a
residual record with no reference, in particular in the reset state,
fails with NoReference; all these failures leave the reference state
unchanged. -/
theorem c9_failure_paths (c : Codec) (nearLossless T Qfx fp : ℕ)
    (st : EncoderState) (f : LFrame) (rec : CompressedFrame) :
    (st.referenceFrame = none →
      encode_residual_frame c nearLossless T Qfx fp st f =
        (.error .NoReference, st)) ∧
    (∀ ref, st.referenceFrame = some ref →
      ¬(f.width = ref.width ∧ f.height = ref.height) →
      encode_residual_frame c nearLossless T Qfx fp st f =
        (.error .DimensionMismatch, st)) ∧
    (rec.isKeyframe = false → st.referenceFrame = none →
      decode_frame c st rec = (.error .NoReference, st)) ∧
    (rec.isKeyframe = false →
      decode_frame c (reset st) rec = (.error .NoReference, reset st)) := by
  refine ⟨?_, ?_, ?_, ?_⟩
  · intro h
    simp [encode_residual_frame, h]
  · intro ref h hne
    simp [encode_residual_frame, h, hne]
  · intro hk h
    simp [decode_frame, hk, h]
  · intro hk
    simp [decode_frame, reset, hk]

/-- Claim C9 (witness): the three failure paths at concrete inputs — an
empty encoder, a 2 x 2 reference against a 1 x 1 frame, and a fresh and a
reset decoder handed a residual record. -/
theorem c9_failure_paths_witness :
    encode_residual_frame idCodec 0 2 512 8 ⟨none⟩ ⟨1, 1, 0, 0, [0]⟩ =
      (.error .NoReference, ⟨none⟩) ∧
    encode_residual_frame idCodec 0 2 512 8
        ⟨some ⟨2, 2, 0, 0, [0, 0, 0, 0]⟩⟩ ⟨1, 1, 0, 1, [0]⟩ =
      (.error .DimensionMismatch, ⟨some ⟨2, 2, 0, 0, [0, 0, 0, 0]⟩⟩) ∧
    decode_frame idCodec ⟨none⟩
        ⟨1, 1, 0, 1, false, 0, 512, 2, 8, false, 0, 65535, [32768]⟩ =
      (.error .NoReference, ⟨none⟩) ∧
    decode_frame idCodec (reset ⟨some ⟨1, 1, 0, 0, [1000]⟩⟩)
        ⟨1, 1, 0, 1, false, 0, 512, 2, 8, false, 0, 65535, [32768]⟩ =
      (.error .NoReference, reset ⟨some ⟨1, 1, 0, 0, [1000]⟩⟩) :=
  ⟨(c9_failure_paths idCodec 0 2 512 8 ⟨none⟩ ⟨1, 1, 0, 0, [0]⟩
      ⟨1, 1, 0, 1, false, 0, 512, 2, 8, false, 0, 65535, [32768]⟩).1 rfl,
    (c9_failure_paths idCodec 0 2 512 8 ⟨some ⟨2, 2, 0, 0, [0, 0, 0, 0]⟩⟩
      ⟨1, 1, 0, 1, [0]⟩
      ⟨1, 1, 0, 1, false, 0, 512, 2, 8, false, 0, 65535, [32768]⟩).2.1
      ⟨2, 2, 0, 0, [0, 0, 0, 0]⟩ rfl (by decide),
    (c9_failure_paths idCodec 0 2 512 8 ⟨none⟩ ⟨1, 1, 0, 0, [0]⟩
      ⟨1, 1, 0, 1, false, 0, 512, 2, 8, false, 0, 65535, [32768]⟩).2.2.1
      rfl rfl,
    (c9_failure_paths idCodec 0 2 512 8 ⟨some ⟨1, 1, 0, 0, [1000]⟩⟩
      ⟨1, 1, 0, 0, [0]⟩
      ⟨1, 1, 0, 1, false, 0, 512, 2, 8, false, 0, 65535, [32768]⟩).2.2.2
      rfl⟩

/-- Claim C1 (code evaluation at the failing input): with near_residual =
0, T = 2, Q = 2 (Qfx = 512), fp = 8 and a lossless codec, encoding the
1 x 1 frame [1001] against reference [1000] stores the raw input [1001]
as the encoder reference (the open-loop branch), while the full decode,
unbias, dequantize, add-to-reference, saturate path applied to the very
record it emitted reconstructs [1000]: the residual 1 lies inside the
dead zone, so its quantized symbol is 0.  The encoder reference and the
decoder reconstruction differ. -/
theorem c1_openloop_divergence :
    encode_residual_frame idCodec 0 2 512 8
        ⟨some ⟨1, 1, 0, 0, [1000]⟩⟩ ⟨1, 1, 7, 1, [1001]⟩ =
      (.ok ⟨1, 1, 7, 1, false, 0, 512, 2, 8, false, 0, 65535, [32768]⟩,
        ⟨some ⟨1, 1, 7, 1, [1001]⟩⟩) ∧
    decode_frame idCodec ⟨some ⟨1, 1, 0, 0, [1000]⟩⟩
        ⟨1, 1, 7, 1, false, 0, 512, 2, 8, false, 0, 65535, [32768]⟩ =
      (.ok ⟨1, 1, 7, 1, [1000]⟩, ⟨some ⟨1, 1, 7, 1, [1000]⟩⟩) ∧
    ([1001] : List ℕ) ≠ [1000] :=
  ⟨rfl, rfl, by decide⟩

/-- Claim C2 (code evaluation at the failing input): encoding the 2 x 1
intra frame [29134, 34436] with 12-bit mode produces a range-mapped
record (range 5302 < 32768) whose payload is the mapped samples [0, 4095]
and stores the inverse-mapped reference [29134, 34436]; a fresh decoder
handed that record emits the still-mapped samples [0, 4095] and stores no
reference at all, although inverse-mapping the decoded samples would
recover [29134, 34436] exactly. -/
theorem c2_intra_decode_divergence :
    encode_intra_frame idCodec 0 ⟨none⟩ ⟨2, 1, 0, 0, [29134, 34436]⟩ true =
      (.ok ⟨2, 1, 0, 0, true, 0, 0, 0, 0, true, 29134, 34436, [0, 4095]⟩,
        ⟨some ⟨2, 1, 0, 0, [29134, 34436]⟩⟩) ∧
    decode_frame idCodec ⟨none⟩
        ⟨2, 1, 0, 0, true, 0, 0, 0, 0, true, 29134, 34436, [0, 4095]⟩ =
      (.ok ⟨2, 1, 0, 0, [0, 4095]⟩, ⟨none⟩) ∧
    ([0, 4095] : List ℕ) ≠ [29134, 34436] ∧
    map_from_12bit [0, 4095] ⟨29134, 34436⟩ = [29134, 34436] :=
  ⟨rfl, rfl, by decide, rfl⟩

/-- Claim C10: biasing an int16 quantized sample into unsigned space by
adding 32768 (encoder.cpp:309) and unbiasing by subtracting 32768
(encoder.cpp:349, 442) is the identity on the entire int16 range under
the mod-2^16 cast semantics, not only on the [-1024, +1023] range the
bias helpers in residual.cpp document. -/
theorem c10_bias_unbias_roundtrip (q : ℤ) (h1 : -32768 ≤ q) (h2 : q ≤ 32767) :
    unbiasElem (biasElem q) = q := by
  unfold unbiasElem biasElem int16ofInt
  omega

/-- Claim C10 (witness): the round trip at q = -32768, far outside the
documented [-1024, +1023] range. -/
theorem c10_bias_unbias_roundtrip_witness :
    unbiasElem (biasElem (-32768)) = -32768 :=
  c10_bias_unbias_roundtrip (-32768) (by decide) (by decide)

end Lwir
